import Mathlib

/-!
# Vinyl catalog viewer — reconciliation and query pipeline, shallowly embedded

This file embeds the record-merging and filter/search logic of the
Digital-Rupture/vinyl repository and proves/refutes the spec's claims about it.

Embedded code:
* `src/vinyl.js` `startDataListener` (lines 331-344): the Map-based seed/live
  merge, `filterRecords` (134-157), `handleSearch` (166-181).
* `src/unnamed/part_000` `setupDataListeners` (264-280): the catalog-number
  based merge with object-spread override.
* `src/unnamed/part_003` `setupDataListener` (217-233): plain concatenation of
  the two sources, `applySearchAndFilter` (334-360) with truthiness-tested year
  bounds, `createAlbumCard` value-tier logic (258-273).
* `src/unnamed/part_002` `getValueClass` (74-85).
* `src/assets/js/app.js` `handleSearch` (290-301).

Modelling conventions:
* JS values that may be a number or a string (record ids) are `IdVal`.
* Possibly-absent object fields are `Option`-typed; `none` is JS `undefined`.
* JS numbers used for values are `ℚ`; a NaN arising from arithmetic on an
  absent operand is modelled by `Option ℚ` being `none`.
* `original_release_year` stores the result of `parseInt` on the field:
  `none` models an absent or unparsable field (`parseInt` returns `NaN`).
* A JS expression that throws (e.g. `undefined.toLowerCase()`) is modelled by
  an `Option` result being `none`.
-/

namespace Vinyl

/-- A JS identifier value: seed records carry numeric or string ids,
Firestore-sourced records carry string document ids. -/
inductive IdVal where
  | num (n : Int)
  | str (s : String)
deriving DecidableEq

/-- JS `id.toString()` on the id values occurring in the data. -/
def IdVal.toKey : IdVal → String
  | .num n => toString n
  | .str s => s

/-- A catalog entry, with possibly-absent fields (`none` = JS `undefined`). -/
structure Record where
  id : IdVal
  artist : Option String := none
  title : Option String := none
  label : Option String := none
  catalog_no : Option String := none
  original_release_year : Option Int := none
  estimated_value_low : Option ℚ := none
  estimated_value_high : Option ℚ := none
  format : Option String := none
deriving DecidableEq

/-- A JS `Map` from id-like keys to records, as an insertion-ordered
association list (JS `Map` iteration follows insertion order). -/
abbrev RecMap := List (IdVal × Record)

/-- JS `Map.prototype.has`. -/
def mapHas : RecMap → IdVal → Bool
  | [], _ => false
  | p :: t, k => p.1 == k || mapHas t k

/-- JS `Map.prototype.set`: update in place if the key is present
(keeping its position), otherwise append. -/
def mapSet : RecMap → IdVal → Record → RecMap
  | [], k, v => [(k, v)]
  | p :: t, k, v => if p.1 = k then (k, v) :: t else p :: mapSet t k v

/-- JS `Map.prototype.get`. -/
def mapGet : RecMap → IdVal → Option Record
  | [], _ => none
  | p :: t, k => if p.1 = k then some p.2 else mapGet t k

/-- `src/vinyl.js` 337-342: a seed record is added only when its key
`record.id.toString()` is not already present. -/
def seedStep (m : RecMap) (r : Record) : RecMap :=
  if mapHas m (IdVal.str r.id.toKey) then m else mapSet m (IdVal.str r.id.toKey) r

/-- `src/vinyl.js` 332-342: build the `combinedRecords` map — first all
Firestore records keyed by `record.id`, then seed records guarded by
`!combinedRecords.has(record.id.toString())`. -/
def combineMap (firestoreRecords initialCollection : List Record) : RecMap :=
  initialCollection.foldl seedStep
    (firestoreRecords.foldl (fun m r => mapSet m r.id r) [])

/-- `src/vinyl.js` 331-344: `allRecords = Array.from(combinedRecords.values())`. -/
def combineRecords (firestoreRecords initialCollection : List Record) : List Record :=
  (combineMap firestoreRecords initialCollection).map Prod.snd

/-- `src/unnamed/part_003` 226: `const finalRecords = [...staticRecords, ...firestoreRecords];`
— plain concatenation, no de-duplication. -/
def finalRecordsP3 (staticRecords firestoreRecords : List Record) : List Record :=
  staticRecords ++ firestoreRecords

/-- JS object spread on one optional field: the overriding object's field wins
when present, otherwise the base object's field is kept. -/
def ovr {α : Type} (o b : Option α) : Option α :=
  match o with
  | some v => some v
  | none => b

/-- `src/unnamed/part_000` 273: `{...initialRecord, ...firestoreMatch}`.
The Firestore record always carries an `id` (set from `doc.id`), so its id
always overrides; its other fields override only when present. -/
def spreadOver (base over : Record) : Record where
  id := over.id
  artist := ovr over.artist base.artist
  title := ovr over.title base.title
  label := ovr over.label base.label
  catalog_no := ovr over.catalog_no base.catalog_no
  original_release_year := ovr over.original_release_year base.original_release_year
  estimated_value_low := ovr over.estimated_value_low base.estimated_value_low
  estimated_value_high := ovr over.estimated_value_high base.estimated_value_high
  format := ovr over.format base.format

/-- `src/unnamed/part_000` 269-278: each seed record is paired with the first
Firestore record whose `catalog_no` is strictly equal (`===`, so two absent
catalog numbers also match) and overlaid with it; then Firestore records whose
`catalog_no` matches no seed record are appended. -/
def mergeP000 (initialJsonData firestoreRecords : List Record) : List Record :=
  (initialJsonData.map (fun ir =>
    match firestoreRecords.find? (fun fr => fr.catalog_no == ir.catalog_no) with
    | some fr => spreadOver ir fr
    | none => ir))
  ++ firestoreRecords.filter
      (fun fr => ! initialJsonData.any (fun ir => ir.catalog_no == fr.catalog_no))

/-- The process-wide filter state of `src/vinyl.js` 37-41 and
`src/unnamed/part_003` 37-41: `{ format: '', yearFrom: null, yearTo: null }`.
The year setters store `null` or a non-NaN integer, so `Option Int` is exact. -/
structure FilterState where
  format : String := ""
  yearFrom : Option Int := none
  yearTo : Option Int := none
deriving DecidableEq

/-- The filter predicate of `src/vinyl.js` `filterRecords` (134-157).
`currentFilters.format` is truthiness-tested (the empty string disables the
format filter); the year comparisons use `parseInt` of the record's field,
whose NaN (`none`) compares false. -/
def recordPasses (fil : FilterState) (record : Record) : Bool :=
  let matchesFormat : Bool :=
    if fil.format = "" then true
    else match record.format with
      | some f => f == fil.format
      | none => false
  let year : Option Int := record.original_release_year
  let fromOk : Bool :=
    match fil.yearFrom with
    | none => true
    | some a => match year with
      | some y => decide (a ≤ y)
      | none => false
  let toOk : Bool :=
    match fil.yearTo with
    | none => true
    | some b => match year with
      | some y => decide (y ≤ b)
      | none => false
  matchesFormat && (fromOk && toOk)

/-- `src/vinyl.js` 135: `records.filter(record => ...)`. -/
def filterRecords (fil : FilterState) (records : List Record) : List Record :=
  records.filter (recordPasses fil)

/-- JS `String.prototype.includes`: contiguous-substring test. -/
def strIncludes (s sub : String) : Bool :=
  decide (sub.data <:+: s.data)

/-- JS `String.prototype.toLowerCase`, as a character-wise map (the data in
this application is ASCII). -/
def jsToLower (s : String) : String :=
  ⟨s.data.map Char.toLower⟩

/-- JS `String.prototype.trim`: strip whitespace from both ends. -/
def jsTrim (s : String) : String :=
  ⟨((s.data.dropWhile Char.isWhitespace).reverse.dropWhile
      Char.isWhitespace).reverse⟩

/-- The search predicate of `src/vinyl.js` `handleSearch` (175-178):
`record.artist.toLowerCase().includes(term) || record.title.toLowerCase().includes(term)`.
An absent `artist` throws a TypeError (`none` here); an absent `title` throws
only when reached, i.e. when the artist test was false (`||` short-circuits). -/
def searchTest (term : String) (r : Record) : Option Bool :=
  match r.artist with
  | none => none
  | some a =>
    if strIncludes (jsToLower a) term then some true
    else match r.title with
      | none => none
      | some t => some (strIncludes (jsToLower t) term)

/-- JS `Array.prototype.filter` with a predicate that may throw: the whole
call produces no output as soon as the predicate throws on some element. -/
def filterM (p : Record → Option Bool) : List Record → Option (List Record)
  | [] => some []
  | r :: rs =>
    match p r with
    | none => none
    | some b =>
      match filterM p rs with
      | none => none
      | some rest => some (if b then r :: rest else rest)

/-- `src/vinyl.js` `handleSearch` (166-181): lowercase and trim the term,
optionally apply `filterRecords`, then apply the (possibly throwing) text
search. The rendering call is outside the core and is not modelled. -/
def handleSearch (fil : FilterState) (allRecords : List Record)
    (searchTerm : String) (applyFilters : Bool) : Option (List Record) :=
  let term := jsTrim (jsToLower searchTerm)
  let filteredList := if applyFilters then filterRecords fil allRecords else allRecords
  filterM (searchTest term) filteredList

/-- The search predicate of `src/assets/js/app.js` `handleSearch` (293-298):
`record.artist ? record.artist.toLowerCase() : ''` — an absent (or empty,
which lowercases to itself) field is replaced by the empty string, so this
predicate is total. -/
def appSearchTest (searchTerm : String) (r : Record) : Bool :=
  let artist : String := match r.artist with | some a => jsToLower a | none => ""
  let title : String := match r.title with | some t => jsToLower t | none => ""
  strIncludes artist searchTerm || strIncludes title searchTerm

/-- `src/assets/js/app.js` `handleSearch` (290-301): total search over the
current records. -/
def appHandleSearch (allRecords : List Record) (searchInputValue : String) :
    List Record :=
  allRecords.filter (appSearchTest (jsTrim (jsToLower searchInputValue)))

/-- JS truthiness of a year bound that is `null` or a number: `null`, `0`
(and NaN, which the setters exclude) are falsy. -/
def jsTruthyInt : Option Int → Bool
  | none => false
  | some n => decide (n ≠ 0)

/-- The filter stage of `src/unnamed/part_003` `applySearchAndFilter`
(339-350): `(!currentFilters.yearFrom || year >= currentFilters.yearFrom) &&
(!currentFilters.yearTo || year <= currentFilters.yearTo)` and
`!currentFilters.format || record.format === currentFilters.format`.
The bounds are truthiness-tested, so a `0` bound disables the test. -/
def p3RecordPasses (fil : FilterState) (r : Record) : Bool :=
  let year : Option Int := r.original_release_year
  let yearMatch : Bool :=
    (if jsTruthyInt fil.yearFrom then
      match year, fil.yearFrom with
      | some y, some a => decide (a ≤ y)
      | _, _ => false
     else true)
    &&
    (if jsTruthyInt fil.yearTo then
      match year, fil.yearTo with
      | some y, some b => decide (y ≤ b)
      | _, _ => false
     else true)
  let formatMatch : Bool :=
    if fil.format = "" then true
    else match r.format with
      | some f => f == fil.format
      | none => false
  yearMatch && formatMatch

/-- `src/unnamed/part_003` 339: `allRecords.filter(record => ...)`. -/
def p3FilterStage (fil : FilterState) (records : List Record) : List Record :=
  records.filter (p3RecordPasses fil)

/-- The JS midpoint `(record.estimated_value_low + record.estimated_value_high) / 2`:
`none` models the NaN produced when either operand is absent. -/
def midpointOf (r : Record) : Option ℚ :=
  match r.estimated_value_low, r.estimated_value_high with
  | some lo, some hi => some ((lo + hi) / 2)
  | _, _ => none

/-- `src/unnamed/part_002` `getValueClass` (74-85): threshold the midpoint at
40 and 20. A NaN midpoint fails both `>=` comparisons and lands in the final
`else` branch. -/
def getValueClass (r : Record) : String :=
  match midpointOf r with
  | some m => if 40 ≤ m then "bg-red-600" else if 20 ≤ m then "bg-yellow-500" else "bg-green-600"
  | none => "bg-green-600"

/-- `src/unnamed/part_003` `createAlbumCard` value badge (262-271): strict
thresholds at 40, 20 and 0 over the average, with a fourth default
(`bg-gray-700`) outcome; a NaN average fails every comparison. -/
def valueColorClassP3 (r : Record) : String :=
  match midpointOf r with
  | some m =>
    if 40 < m then "bg-red-600"
    else if 20 < m then "bg-yellow-600"
    else if 0 < m then "bg-green-600"
    else "bg-gray-700"
  | none => "bg-gray-700"

/-- The per-session state the `onSnapshot` handler of `src/vinyl.js` writes:
the global `allRecords`. -/
structure AppState where
  allRecords : List Record
deriving DecidableEq

/-- One delivery of a Firestore snapshot to the `onSnapshot` handler of
`src/vinyl.js` `startDataListener`: the handler recomputes `allRecords` from
the captured `initialCollection` and the snapshot alone; the previous state is
overwritten, not read. -/
def applySnapshot (initialCollection : List Record) (_st : AppState)
    (firestoreRecords : List Record) : AppState :=
  ⟨combineRecords firestoreRecords initialCollection⟩

/-- Modelled from the spec (§4.1, claim C2): the claimed matching relation —
two records are the same logical record when their `catalogNumber`s are
non-empty on both sides and equal, and otherwise when their ids coerced to
canonical string form are equal. Used only to compare the spec's words with
the code's behaviour. -/
def specSameLogicalRecord (a b : Record) : Bool :=
  match a.catalog_no, b.catalog_no with
  | some ca, some cb =>
    if ca = "" ∨ cb = "" then a.id.toKey == b.id.toKey else ca == cb
  | _, _ => a.id.toKey == b.id.toKey

/-- Modelled from the spec (§4.3, claim C9): the claimed valuation that
coerces a missing value bound to zero before thresholding the midpoint.
Used only to compare the spec's words with the code's behaviour. -/
def specValueClassZeroCoerce (r : Record) : String :=
  let lo : ℚ := r.estimated_value_low.getD 0
  let hi : ℚ := r.estimated_value_high.getD 0
  let m : ℚ := (lo + hi) / 2
  if 40 ≤ m then "bg-red-600" else if 20 ≤ m then "bg-yellow-500" else "bg-green-600"

/-- The last record of `L` whose Map key (its `id`) equals `k` — the winner of
the Firestore pass of the `src/vinyl.js` merge. -/
def liveLast (L : List Record) (k : IdVal) : Option Record :=
  L.reverse.find? (fun r => r.id == k)

/-- The first record of `S` whose Map key (`id.toString()`) equals `k` — the
winner of the seed pass of the `src/vinyl.js` merge. -/
def seedFirst (S : List Record) (k : IdVal) : Option Record :=
  S.find? (fun r => IdVal.str r.id.toKey == k)

/-! ## Helper lemmas about the Map model -/

theorem mapHas_iff_mem_keys (m : RecMap) (k : IdVal) :
    mapHas m k = true ↔ k ∈ m.map Prod.fst := by
  induction m with
  | nil => simp [mapHas]
  | cons p t ih =>
    simp only [mapHas, List.map_cons, List.mem_cons, Bool.or_eq_true, beq_iff_eq, ih]
    constructor
    · rintro (h | h)
      · exact Or.inl h.symm
      · exact Or.inr h
    · rintro (h | h)
      · exact Or.inl h.symm
      · exact Or.inr h

theorem mapGet_eq_none_iff (m : RecMap) (k : IdVal) :
    mapGet m k = none ↔ mapHas m k = false := by
  induction m with
  | nil => simp [mapGet, mapHas]
  | cons p t ih =>
    by_cases h : p.1 = k
    · have hb : (p.1 == k) = true := by simpa using h
      simp only [mapGet, mapHas, if_pos h, hb]
      simp
    · have hb : (p.1 == k) = false := by simpa using h
      simp only [mapGet, mapHas, if_neg h, hb, Bool.false_or]
      exact ih

theorem mapGet_mapSet_self (k : IdVal) (v : Record) (m : RecMap) :
    mapGet (mapSet m k v) k = some v := by
  induction m with
  | nil => simp [mapSet, mapGet]
  | cons p t ih =>
    by_cases h : p.1 = k
    · simp [mapSet, h, mapGet]
    · simp [mapSet, h, mapGet, ih]

theorem mapGet_mapSet_ne (k k' : IdVal) (v : Record) (m : RecMap)
    (h : k' ≠ k) : mapGet (mapSet m k v) k' = mapGet m k' := by
  induction m with
  | nil =>
    have hkk' : ¬ ((k : IdVal) = k') := fun e => h e.symm
    simp only [mapSet, mapGet, if_neg hkk']
  | cons p t ih =>
    by_cases hp : p.1 = k
    · have hkk' : ¬ ((k : IdVal) = k') := fun e => h e.symm
      have hpk' : ¬ (p.1 = k') := fun e => h (hp.symm.trans e).symm
      simp only [mapSet, if_pos hp, mapGet, if_neg hkk', if_neg hpk']
    · by_cases hk' : p.1 = k'
      · simp only [mapSet, if_neg hp, mapGet, if_pos hk']
      · simp only [mapSet, if_neg hp, mapGet, if_neg hk']
        exact ih

theorem mem_mapSet {q : IdVal × Record} (k : IdVal) (v : Record) :
    ∀ (m : RecMap), q ∈ mapSet m k v → q = (k, v) ∨ q ∈ m := by
  intro m
  induction m with
  | nil => simp [mapSet]
  | cons p t ih =>
    by_cases h : p.1 = k
    · simp only [mapSet, h, if_pos]
      intro hq
      rcases List.mem_cons.1 hq with h1 | h1
      · exact Or.inl h1
      · exact Or.inr (List.mem_cons_of_mem _ h1)
    · simp only [mapSet, h, if_neg, not_false_iff]
      intro hq
      rcases List.mem_cons.1 hq with h1 | h1
      · exact Or.inr (h1 ▸ List.mem_cons_self _ _)
      · rcases ih h1 with h2 | h2
        · exact Or.inl h2
        · exact Or.inr (List.mem_cons_of_mem _ h2)

theorem keys_mapSet (k : IdVal) (v : Record) (m : RecMap) :
    (mapSet m k v).map Prod.fst =
      if mapHas m k then m.map Prod.fst else m.map Prod.fst ++ [k] := by
  induction m with
  | nil => simp [mapSet, mapHas]
  | cons p t ih =>
    by_cases h : p.1 = k
    · simp [mapSet, mapHas, h]
    · by_cases ht : mapHas t k
      · simp [mapSet, mapHas, h, ht, ih]
      · simp [mapSet, mapHas, h, ht, ih]

theorem nodup_keys_mapSet (k : IdVal) (v : Record) (m : RecMap)
    (h : (m.map Prod.fst).Nodup) : ((mapSet m k v).map Prod.fst).Nodup := by
  rw [keys_mapSet]
  by_cases hh : mapHas m k
  · simpa [hh] using h
  · have hk : k ∉ m.map Prod.fst := by
      intro hmem
      exact hh ((mapHas_iff_mem_keys m k).2 hmem)
    simp only [hh, if_neg, Bool.false_eq_true, not_false_iff]
    exact List.Nodup.append h (List.nodup_singleton k) (by simpa using hk)

/-! ## Characterization of the vinyl.js merge -/

theorem live_fold_get (L : List Record) :
    ∀ (m0 : RecMap) (k : IdVal),
      mapGet (L.foldl (fun m r => mapSet m r.id r) m0) k =
        (liveLast L k).or (mapGet m0 k) := by
  induction L with
  | nil => intro m0 k; simp [liveLast]
  | cons h t ih =>
    intro m0 k
    have hrev : liveLast (h :: t) k = (liveLast t k).or ([h].find? (fun r => r.id == k)) := by
      simp [liveLast, List.reverse_cons]
    rw [List.foldl_cons, ih, hrev]
    cases e : liveLast t k with
    | some r => simp
    | none =>
      by_cases hk : h.id = k
      · subst hk
        simp [List.find?, mapGet_mapSet_self]
      · have hb : (h.id == k) = false := by simpa using hk
        simp [List.find?, hb, mapGet_mapSet_ne h.id k h m0 (fun e' => hk e'.symm)]

theorem seed_fold_get (S : List Record) :
    ∀ (m0 : RecMap) (k : IdVal),
      mapGet (S.foldl seedStep m0) k = (mapGet m0 k).or (seedFirst S k) := by
  induction S with
  | nil => intro m0 k; simp [seedFirst, Option.or_none]
  | cons h t ih =>
    intro m0 k
    rw [List.foldl_cons, ih]
    by_cases hk : IdVal.str h.id.toKey = k
    · have hfind : seedFirst (h :: t) k = some h := by
        simp [seedFirst, List.find?, hk]
      by_cases hh : mapHas m0 (IdVal.str h.id.toKey)
      · have hsome : mapGet m0 k ≠ none := by
          intro e
          rw [mapGet_eq_none_iff] at e
          rw [hk] at hh
          rw [e] at hh
          exact absurd hh Bool.false_ne_true
        cases e : mapGet m0 k with
        | none => exact absurd e hsome
        | some v => simp [seedStep, hh, e, hfind]
      · have hget : mapGet (mapSet m0 (IdVal.str h.id.toKey) h) k = some h := by
          rw [← hk]
          exact mapGet_mapSet_self _ _ _
        have hnone : mapGet m0 k = none := by
          rw [mapGet_eq_none_iff]
          rw [hk] at hh
          simpa using hh
        rw [seedStep, if_neg hh, hget, hnone, hfind]
        simp
    · have hfind : seedFirst (h :: t) k = seedFirst t k := by
        have hb : (IdVal.str h.id.toKey == k) = false := by simpa using hk
        simp [seedFirst, List.find?, hb]
      by_cases hh : mapHas m0 (IdVal.str h.id.toKey)
      · simp [seedStep, hh, hfind]
      · rw [seedStep, if_neg hh, hfind,
          mapGet_mapSet_ne (IdVal.str h.id.toKey) k h m0 (fun e' => hk e'.symm)]

/-- The full lookup characterization of the `src/vinyl.js` merge: the record
stored under key `k` is the **last** Firestore record whose `id` is `k`, and
otherwise the **first** seed record whose `id.toString()` is `k`. -/
theorem combineMap_get (live seed : List Record) (k : IdVal) :
    mapGet (combineMap live seed) k = (liveLast live k).or (seedFirst seed k) := by
  unfold combineMap
  rw [seed_fold_get, live_fold_get]
  cases liveLast live k <;> simp [mapGet]

theorem mapGet_mem_values {k : IdVal} {v : Record} :
    ∀ (m : RecMap), mapGet m k = some v → v ∈ m.map Prod.snd := by
  intro m
  induction m with
  | nil => simp [mapGet]
  | cons p t ih =>
    by_cases h : p.1 = k
    · simp [mapGet, h]
      intro e
      exact Or.inl e.symm
    · simp only [mapGet, h, if_neg, not_false_iff, List.map_cons, List.mem_cons]
      intro e
      exact Or.inr (ih e)

theorem liveLast_mem {L : List Record} {k : IdVal} {r : Record}
    (h : liveLast L k = some r) : r ∈ L ∧ r.id = k := by
  unfold liveLast at h
  refine ⟨List.mem_reverse.1 (List.mem_of_find?_eq_some h), ?_⟩
  simpa using List.find?_some h

theorem liveLast_isSome_of_mem {L : List Record} {k : IdVal} {l : Record}
    (hl : l ∈ L) (hk : l.id = k) : (liveLast L k).isSome := by
  unfold liveLast
  rw [List.find?_isSome]
  exact ⟨l, List.mem_reverse.2 hl, by simp [hk]⟩

theorem live_fold_nodup (L : List Record) :
    ∀ m0 : RecMap, (m0.map Prod.fst).Nodup →
      (((L.foldl (fun m r => mapSet m r.id r) m0)).map Prod.fst).Nodup := by
  induction L with
  | nil => intro m0 h; simpa using h
  | cons h t ih =>
    intro m0 hm
    exact ih _ (nodup_keys_mapSet _ _ _ hm)

theorem seed_fold_nodup (S : List Record) :
    ∀ m0 : RecMap, (m0.map Prod.fst).Nodup →
      ((S.foldl seedStep m0).map Prod.fst).Nodup := by
  induction S with
  | nil => intro m0 h; simpa using h
  | cons h t ih =>
    intro m0 hm
    apply ih
    unfold seedStep
    by_cases hh : mapHas m0 (IdVal.str h.id.toKey)
    · simpa [hh] using hm
    · simpa [hh] using nodup_keys_mapSet (IdVal.str h.id.toKey) h m0 hm

/-- Every entry of the built map is stored under the key obtained from its
value's id: the string id itself for Firestore entries, `id.toString()` for
seed entries. -/
def EntryOk (m : RecMap) : Prop :=
  ∀ p ∈ m, p.1 = IdVal.str p.2.id.toKey

theorem live_fold_entry (L : List Record) :
    ∀ m0 : RecMap, (∀ r ∈ L, ∃ s, r.id = IdVal.str s) → EntryOk m0 →
      EntryOk (L.foldl (fun m r => mapSet m r.id r) m0) := by
  induction L with
  | nil => intro m0 _ h; simpa using h
  | cons h t ih =>
    intro m0 hL hm
    apply ih _ (fun r hr => hL r (List.mem_cons_of_mem _ hr))
    intro p hp
    rcases mem_mapSet h.id h m0 hp with he | he
    · rcases hL h (List.mem_cons_self _ _) with ⟨s, hs⟩
      rw [he]
      simp [hs, IdVal.toKey]
    · exact hm p he

theorem seed_fold_entry (S : List Record) :
    ∀ m0 : RecMap, EntryOk m0 → EntryOk (S.foldl seedStep m0) := by
  induction S with
  | nil => intro m0 h; simpa using h
  | cons h t ih =>
    intro m0 hm
    apply ih
    intro p hp
    unfold seedStep at hp
    by_cases hh : mapHas m0 (IdVal.str h.id.toKey)
    · rw [if_pos hh] at hp
      exact hm p hp
    · rw [if_neg hh] at hp
      rcases mem_mapSet (IdVal.str h.id.toKey) h m0 hp with he | he
      · rw [he]
      · exact hm p he

/-! ## Claim theorems -/

/-- C1, counterexample: the reconciler variant of `src/unnamed/part_003`
(`setupDataListener`, line 226) concatenates the seed and live lists without
any de-duplication, so a logical record present in both sources appears twice
in the merged output — two output records share the match key `"d1"`,
refuting "the merged output contains exactly one record per match key". -/
theorem c1_p3_duplicate_key_counterexample :
    ¬ (finalRecordsP3
        [{ id := IdVal.str "d1", title := some "T" }]
        [{ id := IdVal.str "d1", title := some "T" }]).Pairwise
        (fun a b => a.id.toKey ≠ b.id.toKey) := by
  decide

/-- C1 (amended): in the `src/vinyl.js` reconciler (`startDataListener`,
lines 331-344), provided the live records carry string ids — which the
listener guarantees by keying them with the Firestore `doc.id` — no two
records of the merged output share a match key (`id` coerced to string).
The `part_003` variant concatenates the sources and does not satisfy this. -/
theorem c1_vinyl_no_duplicate_match_keys (live seed : List Record)
    (hL : ∀ r ∈ live, ∃ s, r.id = IdVal.str s) :
    (combineRecords live seed).Pairwise (fun a b => a.id.toKey ≠ b.id.toKey) := by
  have hnodup : ((combineMap live seed).map Prod.fst).Nodup := by
    apply seed_fold_nodup
    apply live_fold_nodup
    simp
  have hentry : EntryOk (combineMap live seed) := by
    apply seed_fold_entry
    apply live_fold_entry live [] hL
    intro p hp
    simp at hp
  have hkeys : (combineMap live seed).map Prod.fst
      = (combineMap live seed).map (fun p => IdVal.str p.2.id.toKey) :=
    List.map_congr_left (fun p hp => hentry p hp)
  rw [hkeys] at hnodup
  have hmapped : ((combineRecords live seed).map
      (fun r => IdVal.str r.id.toKey)).Nodup := by
    unfold combineRecords
    rw [List.map_map]
    exact hnodup
  have hpw : (combineRecords live seed).Pairwise
      (fun a b => IdVal.str a.id.toKey ≠ IdVal.str b.id.toKey) :=
    List.pairwise_map.1 hmapped
  exact hpw.imp (fun hne e => hne (congrArg IdVal.str e))

/-- Witness for C1's amended theorem at a concrete input. -/
theorem c1_vinyl_no_duplicate_match_keys_witness :
    ([ { id := IdVal.str "5", title := some "live5" } ].map Record.id
        = [IdVal.str "5"])
    ∧ (combineRecords
        [ { id := IdVal.str "5", title := some "live5" } ]
        [ { id := IdVal.num 5, title := some "seed5" },
          { id := IdVal.num 7, title := some "seed7" } ]).Pairwise
        (fun a b => a.id.toKey ≠ b.id.toKey) := by
  refine ⟨rfl, c1_vinyl_no_duplicate_match_keys _ _ ?_⟩
  intro r hr
  rcases List.mem_singleton.1 hr with rfl
  exact ⟨"5", rfl⟩

/-- Singleton-input characterization of the `src/vinyl.js` merge: the only
thing that can identify a live and a seed record is the id coerced to string. -/
theorem combine_singleton (l s : Record) :
    combineRecords [l] [s]
      = if IdVal.str s.id.toKey = l.id then [l] else [l, s] := by
  by_cases h : IdVal.str s.id.toKey = l.id
  · have hb : (l.id == IdVal.str s.id.toKey) = true := by
      rw [h]
      simp
    simp [combineRecords, combineMap, seedStep, mapSet, mapHas, hb, h]
  · have hb : (l.id == IdVal.str s.id.toKey) = false := by
      simpa using fun e => h e.symm
    have hne : ¬ (l.id = IdVal.str s.id.toKey) := fun e => h e.symm
    simp [combineRecords, combineMap, seedStep, mapSet, mapHas, hb, hne, h]

/-- Singleton-input characterization of the `src/unnamed/part_000` merge: the
only thing that can identify a live and a seed record is strict equality of
the (possibly absent) `catalog_no` fields. -/
theorem mergeP000_singleton (s l : Record) :
    mergeP000 [s] [l]
      = if l.catalog_no = s.catalog_no then [spreadOver s l] else [s, l] := by
  by_cases h : l.catalog_no = s.catalog_no
  · have hb : (l.catalog_no == s.catalog_no) = true := by simpa using h
    have hb' : (s.catalog_no == l.catalog_no) = true := by simpa using h.symm
    simp [mergeP000, List.find?, hb, hb', h]
  · have hb : (l.catalog_no == s.catalog_no) = false := by simpa using h
    have hb' : (s.catalog_no == l.catalog_no) = false := by
      simpa using fun e => h e.symm
    simp [mergeP000, List.find?, hb, hb', h]

/-- C2, counterexample: the claimed matching key (prefer non-empty
`catalogNumber`, fall back to canonical-string id) matches neither cited
implementation. Left: two records share the non-empty catalog number `"ABC"`
(the spec relation identifies them), yet the `src/vinyl.js` merge keeps both —
it never consults the catalog number. Right: two records whose ids coerce to
the same string `"5"` (the spec relation identifies them via the id fallback,
their catalog numbers not being non-empty on both sides), yet the
`src/unnamed/part_000` merge keeps both — it never consults the id. -/
theorem c2_matching_key_counterexample :
    (specSameLogicalRecord
        { id := IdVal.num 1, catalog_no := some "ABC" }
        { id := IdVal.str "doc1", catalog_no := some "ABC" } = true
      ∧ combineRecords
          [ { id := IdVal.str "doc1", catalog_no := some "ABC" } ]
          [ { id := IdVal.num 1, catalog_no := some "ABC" } ]
        = [ { id := IdVal.str "doc1", catalog_no := some "ABC" },
            { id := IdVal.num 1, catalog_no := some "ABC" } ])
    ∧ (specSameLogicalRecord
        { id := IdVal.num 5, catalog_no := some "X" }
        { id := IdVal.str "5" } = true
      ∧ mergeP000
          [ { id := IdVal.num 5, catalog_no := some "X" } ]
          [ { id := IdVal.str "5" } ]
        = [ { id := IdVal.num 5, catalog_no := some "X" },
            { id := IdVal.str "5" } ]) := by
  refine ⟨⟨?_, ?_⟩, ⟨?_, ?_⟩⟩ <;> decide

/-- C2 (amended): each variant uses a single-field matching key.
`src/vinyl.js` (`startDataListener` 334-342) matches solely on the id coerced
to a canonical string — a numeric seed id `5` does match a live string id
`"5"` — and ignores `catalogNumber` entirely; `src/unnamed/part_000`
(`setupDataListeners` 269-278) matches solely on strict equality of
`catalog_no` — with no id fallback and no non-emptiness requirement, so two
absent catalog numbers also match. -/
theorem c2_match_key_amended :
    (∀ l s : Record,
      combineRecords [l] [s]
        = if IdVal.str s.id.toKey = l.id then [l] else [l, s])
    ∧ (∀ s l : Record,
      mergeP000 [s] [l]
        = if l.catalog_no = s.catalog_no then [spreadOver s l] else [s, l]) :=
  ⟨combine_singleton, mergeP000_singleton⟩

/-- C3, counterexample: in `src/unnamed/part_000` the merged record for a key
present in both sources is `{...initialRecord, ...firestoreMatch}`. A field
the live record lacks (here `label`) keeps the **seed** record's value, so
the merged record does not equal the live record's fields. -/
theorem c3_p000_seed_field_leak_counterexample :
    (mergeP000
        [ { id := IdVal.num 1, catalog_no := some "ABC",
            label := some "X", title := some "T1" } ]
        [ { id := IdVal.str "d", catalog_no := some "ABC",
            title := some "T1-live" } ]).map Record.label = [some "X"]
    ∧ ({ id := IdVal.str "d", catalog_no := some "ABC",
          title := some "T1-live" } : Record).label = none := by
  refine ⟨?_, rfl⟩
  decide

/-- C3 (amended): in `src/vinyl.js`, for every match key present in the live
list, the merged output contains a record with that key that **is** a live
record (the seed record never survives for such a key). In
`src/unnamed/part_000`, the merged record for a shared catalog number is the
live record's fields overlaid on the seed record's: a field absent from the
live record (here `label`) retains the seed record's value. -/
theorem c3_live_precedence_amended :
    (∀ (live seed : List Record) (K : String),
      (∃ l ∈ live, l.id = IdVal.str K) →
        ∃ r, r ∈ combineRecords live seed ∧ r.id = IdVal.str K ∧ r ∈ live)
    ∧ (∀ s l : Record, l.catalog_no = s.catalog_no → l.label = none →
        mergeP000 [s] [l] = [spreadOver s l]
        ∧ (spreadOver s l).label = s.label) := by
  constructor
  · rintro live seed K ⟨l, hl, hk⟩
    have hsome : (liveLast live (IdVal.str K)).isSome :=
      liveLast_isSome_of_mem hl hk
    obtain ⟨r, hr⟩ := Option.isSome_iff_exists.1 hsome
    have hget : mapGet (combineMap live seed) (IdVal.str K) = some r := by
      rw [combineMap_get, hr]
      simp
    obtain ⟨hrL, hrid⟩ := liveLast_mem hr
    exact ⟨r, mapGet_mem_values _ hget, hrid, hrL⟩
  · intro s l hc hlab
    constructor
    · rw [mergeP000_singleton, if_pos hc]
    · simp [spreadOver, hlab, ovr]

/-- Witness for C3's amended theorem at concrete inputs. -/
theorem c3_live_precedence_amended_witness :
    (∃ r, r ∈ combineRecords
        [ { id := IdVal.str "5", title := some "live5" } ]
        [ { id := IdVal.num 5, title := some "seed5" } ]
      ∧ r.id = IdVal.str "5"
      ∧ r ∈ [ { id := IdVal.str "5", title := some "live5" } ])
    ∧ (mergeP000
        [ { id := IdVal.num 1, catalog_no := some "C", label := some "L" } ]
        [ { id := IdVal.str "d", catalog_no := some "C" } ]
      = [spreadOver
          { id := IdVal.num 1, catalog_no := some "C", label := some "L" }
          { id := IdVal.str "d", catalog_no := some "C" }]
      ∧ (spreadOver
          { id := IdVal.num 1, catalog_no := some "C", label := some "L" }
          { id := IdVal.str "d", catalog_no := some "C" }).label
        = ({ id := IdVal.num 1, catalog_no := some "C",
             label := some "L" } : Record).label) := by
  constructor
  · exact c3_live_precedence_amended.1
      [ { id := IdVal.str "5", title := some "live5" } ]
      [ { id := IdVal.num 5, title := some "seed5" } ] "5"
      ⟨_, List.mem_singleton_self _, rfl⟩
  · exact c3_live_precedence_amended.2
      { id := IdVal.num 1, catalog_no := some "C", label := some "L" }
      { id := IdVal.str "d", catalog_no := some "C" } rfl rfl

/-- C4, counterexample: the `src/vinyl.js` search predicate evaluates
`record.artist.toLowerCase()` unguarded, so on a record with no `artist`
field `handleSearch` throws a TypeError (modelled by `none`) instead of
treating the field as the empty string. -/
theorem c4_vinyl_search_throws_counterexample :
    handleSearch { format := "", yearFrom := none, yearTo := none }
      [ { id := IdVal.num 1, title := some "T" } ] "x" true = none := by
  decide

/-- C4 (amended): the guarded search of `src/assets/js/app.js` (293-298)
never throws and treats an absent `artist`/`title` as the empty string (its
result is unchanged by substituting the empty string for absent fields); the
unguarded search of `src/vinyl.js` (175-178) throws on any record whose
`artist` is absent. -/
theorem c4_search_safety_amended :
    (∀ (term : String) (r : Record),
      appSearchTest term r
        = appSearchTest term
            { r with artist := some (r.artist.getD ""),
                     title := some (r.title.getD "") })
    ∧ (∀ (term : String) (r : Record),
      r.artist = none → searchTest term r = none) := by
  constructor
  · intro term r
    have hemp : jsToLower "" = "" := by decide
    cases ha : r.artist <;> cases ht : r.title <;>
      simp [appSearchTest, ha, ht, hemp]
  · intro term r h
    simp [searchTest, h]

/-- Witness for C4's amended theorem at a concrete input. -/
theorem c4_search_safety_amended_witness :
    (appSearchTest "t" { id := IdVal.num 1, title := some "T" }
      = appSearchTest "t"
          { id := IdVal.num 1, artist := some "", title := some "T" })
    ∧ searchTest "t" { id := IdVal.num 1, title := some "T" } = none := by
  constructor
  · exact c4_search_safety_amended.1 "t" { id := IdVal.num 1, title := some "T" }
  · exact c4_search_safety_amended.2 "t"
      { id := IdVal.num 1, title := some "T" } rfl

/-- C5, counterexample: when the **seed** list contains two records with the
same match key, the `src/vinyl.js` merge keeps the **first** one — the
insertion is guarded by `!combinedRecords.has(...)`, so the later duplicate
is skipped, contradicting "the record occurring later in that source list is
the one retained". -/
theorem c5_seed_first_wins_counterexample :
    combineRecords []
      [ { id := IdVal.num 1, title := some "A" },
        { id := IdVal.num 1, title := some "B" } ]
      = [ { id := IdVal.num 1, title := some "A" } ]
    ∧ ({ id := IdVal.num 1, title := some "A" } : Record)
        ≠ { id := IdVal.num 1, title := some "B" } := by
  refine ⟨?_, ?_⟩ <;> decide

/-- C5 (amended): duplicate-key resolution in the `src/vinyl.js` merge is
deterministic but direction differs by source: within the live (Firestore)
pass, `Map.set` overwrites, so the **last** record with a key wins; within
the seed pass, insertion is guarded by a `has` check, so the **first** seed
record with a key wins — and any live record with the key beats every seed
record. The map lookup is exactly “last live occurrence, else first seed
occurrence”. -/
theorem c5_last_live_first_seed_amended (live seed : List Record) (k : IdVal) :
    mapGet (combineMap live seed) k
      = (liveLast live k).or (seedFirst seed k) :=
  combineMap_get live seed k

/-- C6: the `onSnapshot` reconciliation of `src/vinyl.js` is idempotent and a
pure function of its two inputs: delivering the same snapshot twice leaves
the state unchanged, and the resulting state does not depend on the previous
state — it is `combineRecords` of the snapshot and the captured seed list. -/
theorem c6_reconcile_idempotent :
    (∀ (seed live : List Record) (st : AppState),
      applySnapshot seed (applySnapshot seed st live) live
        = applySnapshot seed st live)
    ∧ (∀ (seed live : List Record) (st st' : AppState),
      applySnapshot seed st live = applySnapshot seed st' live)
    ∧ (∀ (seed live : List Record) (st : AppState),
      (applySnapshot seed st live).allRecords = combineRecords live seed) :=
  ⟨fun _ _ _ => rfl, fun _ _ _ _ => rfl, fun _ _ _ => rfl⟩

theorem strIncludes_empty_term (s : String) : strIncludes s "" = true := by
  have h : ("" : String).data = [] := rfl
  simp only [strIncludes, h, decide_eq_true_eq]
  exact List.nil_infix

theorem filterM_all_true {p : Record → Option Bool} :
    ∀ {l : List Record}, (∀ r ∈ l, p r = some true) → filterM p l = some l := by
  intro l
  induction l with
  | nil => intro _; rfl
  | cons r rs ih =>
    intro h
    have hr := h r (List.mem_cons_self _ _)
    have hrs := ih (fun x hx => h x (List.mem_cons_of_mem _ hx))
    simp [filterM, hr, hrs]

theorem filterM_sublist {p : Record → Option Bool} :
    ∀ {l out : List Record}, filterM p l = some out → out.Sublist l := by
  intro l
  induction l with
  | nil =>
    intro out h
    simp only [filterM, Option.some.injEq] at h
    rw [← h]
  | cons r rs ih =>
    intro out h
    unfold filterM at h
    cases hp : p r with
    | none => rw [hp] at h; cases h
    | some b =>
      rw [hp] at h
      cases hrec : filterM p rs with
      | none => rw [hrec] at h; cases h
      | some rest =>
        rw [hrec] at h
        have hsub := ih hrec
        have hout := Option.some.inj h
        cases b with
        | true =>
          rw [← hout]
          exact List.Sublist.cons₂ r hsub
        | false =>
          rw [← hout]
          exact List.Sublist.cons r hsub

/-- C7, counterexample: with every filter unset and an empty search term the
`src/vinyl.js` engine does **not** return the full record set when some
record lacks an `artist` field — the search step throws (`none`) instead of
passing the record through. -/
theorem c7_passthrough_throws_counterexample :
    ¬ (handleSearch { format := "", yearFrom := none, yearTo := none }
        [ { id := IdVal.num 1, title := some "T" } ] "" true
      = some [ { id := IdVal.num 1, title := some "T" } ]) := by
  decide

/-- C7 (amended): restricted to records on which the search predicate is
defined (an `artist` field present; absent artists make `handleSearch` throw,
see C4), the `src/vinyl.js` engine with all filter fields unset and an empty
search term returns the full record set in stored order; and whenever
`handleSearch` returns a list at all, that list is a sublist of the input —
the engine never re-orders. -/
theorem c7_passthrough_order_amended :
    (∀ records : List Record, (∀ r ∈ records, r.artist.isSome) →
      handleSearch { format := "", yearFrom := none, yearTo := none }
        records "" true = some records)
    ∧ (∀ (fil : FilterState) (records : List Record) (term : String)
        (b : Bool) (out : List Record),
      handleSearch fil records term b = some out → out.Sublist records) := by
  constructor
  · intro records h
    have hterm : jsTrim (jsToLower "") = "" := by decide
    have hfil : filterRecords { format := "", yearFrom := none, yearTo := none }
        records = records :=
      List.filter_eq_self.2 (fun r _ => by simp [recordPasses])
    have hsearch : ∀ r ∈ records, searchTest "" r = some true := by
      intro r hr
      obtain ⟨a, ha⟩ := Option.isSome_iff_exists.1 (h r hr)
      simp [searchTest, ha, strIncludes_empty_term]
    have hgoal : filterM (searchTest "") records = some records :=
      filterM_all_true hsearch
    simp [handleSearch, hterm, hfil, hgoal]
  · intro fil records term b out h
    simp only [handleSearch] at h
    have h1 := filterM_sublist h
    cases b with
    | true =>
      rw [if_pos rfl] at h1
      exact h1.trans (List.filter_sublist _)
    | false =>
      rw [if_neg (by simp)] at h1
      exact h1

/-- Witness for C7's amended theorem at concrete inputs. -/
theorem c7_passthrough_order_amended_witness :
    handleSearch { format := "", yearFrom := none, yearTo := none }
      [ { id := IdVal.num 1, artist := some "Miles Davis", title := some "K" } ]
      "" true
      = some [ { id := IdVal.num 1, artist := some "Miles Davis",
                 title := some "K" } ]
    ∧ ([ { id := IdVal.num 1, artist := some "A", title := some "T",
           original_release_year := some 1980 } ] : List Record).Sublist
        [ { id := IdVal.num 1, artist := some "A", title := some "T",
            original_release_year := some 1980 },
          { id := IdVal.num 2, artist := some "B", title := some "U",
            original_release_year := some 1990 } ] := by
  constructor
  · exact c7_passthrough_order_amended.1
      [ { id := IdVal.num 1, artist := some "Miles Davis", title := some "K" } ]
      (by decide)
  · exact c7_passthrough_order_amended.2
      { format := "", yearFrom := some 1975, yearTo := some 1985 }
      [ { id := IdVal.num 1, artist := some "A", title := some "T",
          original_release_year := some 1980 },
        { id := IdVal.num 2, artist := some "B", title := some "U",
          original_release_year := some 1990 } ]
      "" true
      [ { id := IdVal.num 1, artist := some "A", title := some "T",
          original_release_year := some 1980 } ]
      (by decide)

/-- C8: the year bounds of `src/vinyl.js` `filterRecords` (145-153) are
inclusive — a record whose year parses to 1970 is kept by
`yearFrom = 1970, yearTo = 1970` and dropped once `yearFrom = 1971`. -/
theorem c8_year_bounds_inclusive (r : Record)
    (h : r.original_release_year = some 1970) :
    filterRecords { format := "", yearFrom := some 1970, yearTo := some 1970 }
        [r] = [r]
    ∧ filterRecords { format := "", yearFrom := some 1971, yearTo := some 1970 }
        [r] = [] := by
  constructor <;> simp [filterRecords, recordPasses, h]

/-- Witness for C8 at a concrete record. -/
theorem c8_year_bounds_inclusive_witness :
    filterRecords { format := "", yearFrom := some 1970, yearTo := some 1970 }
      [ { id := IdVal.num 1, original_release_year := some 1970 } ]
      = [ { id := IdVal.num 1, original_release_year := some 1970 } ]
    ∧ filterRecords { format := "", yearFrom := some 1971, yearTo := some 1970 }
      [ { id := IdVal.num 1, original_release_year := some 1970 } ] = [] :=
  c8_year_bounds_inclusive
    { id := IdVal.num 1, original_release_year := some 1970 } rfl

/-- C9, counterexample: a missing value bound is **not** coerced to zero. On a
record with `estimated_value_low` absent and `estimated_value_high = 100`,
zero-coercion (the spec's rule) would put the midpoint at 50 and yield the
high tier, but `getValueClass` of `src/unnamed/part_002` computes NaN, fails
both threshold comparisons and lands in the low (green) tier. The
`src/unnamed/part_003` card variant is also not three-tiered: a record valued
0-0 gets the fourth, default gray class. -/
theorem c9_value_missing_not_zero_counterexample :
    specValueClassZeroCoerce
        { id := IdVal.num 1, estimated_value_high := some 100 } = "bg-red-600"
    ∧ getValueClass
        { id := IdVal.num 1, estimated_value_high := some 100 } = "bg-green-600"
    ∧ valueColorClassP3
        { id := IdVal.num 2, estimated_value_low := some 0,
          estimated_value_high := some 0 } = "bg-gray-700" := by
  refine ⟨?_, ?_, ?_⟩
  · norm_num [specValueClassZeroCoerce]
  · rfl
  · norm_num [valueColorClassP3, midpointOf]

/-- C9 (amended): `getValueClass` (part_002) is a stateless total function
producing exactly one of three tiers by thresholding the midpoint at 40 and
20; but a missing value bound is not coerced to zero — the JS midpoint is
then NaN, which fails every threshold comparison, so the record lands in the
bottom branch (green in part_002, and the fourth/default gray outcome of the
part_003 card variant). -/
theorem c9_value_class_amended :
    (∀ r : Record,
      getValueClass r = "bg-red-600" ∨ getValueClass r = "bg-yellow-500"
        ∨ getValueClass r = "bg-green-600")
    ∧ (∀ r : Record,
      r.estimated_value_low = none ∨ r.estimated_value_high = none →
        getValueClass r = "bg-green-600"
        ∧ valueColorClassP3 r = "bg-gray-700") := by
  constructor
  · intro r
    unfold getValueClass
    cases midpointOf r with
    | none => simp
    | some m =>
      by_cases h40 : (40 : ℚ) ≤ m
      · simp [h40]
      · by_cases h20 : (20 : ℚ) ≤ m
        · simp [h40, h20]
        · simp [h40, h20]
  · intro r h
    have hmid : midpointOf r = none := by
      unfold midpointOf
      rcases h with h | h
      · rw [h]
      · rw [h]
        cases r.estimated_value_low <;> rfl
    constructor
    · unfold getValueClass
      rw [hmid]
    · unfold valueColorClassP3
      rw [hmid]

/-- Witness for C9's amended theorem at a concrete record. -/
theorem c9_value_class_amended_witness :
    (getValueClass { id := IdVal.num 1, estimated_value_low := some 10 }
        = "bg-red-600"
      ∨ getValueClass { id := IdVal.num 1, estimated_value_low := some 10 }
        = "bg-yellow-500"
      ∨ getValueClass { id := IdVal.num 1, estimated_value_low := some 10 }
        = "bg-green-600")
    ∧ (getValueClass { id := IdVal.num 1, estimated_value_low := some 10 }
        = "bg-green-600"
      ∧ valueColorClassP3 { id := IdVal.num 1, estimated_value_low := some 10 }
        = "bg-gray-700") := by
  constructor
  · exact c9_value_class_amended.1 { id := IdVal.num 1, estimated_value_low := some 10 }
  · exact c9_value_class_amended.2 { id := IdVal.num 1, estimated_value_low := some 10 }
      (Or.inr rfl)

/-- C10: in `src/unnamed/part_003` `applySearchAndFilter` (342-344) the year
bounds are tested for truthiness (`!currentFilters.yearFrom || ...`), so a
bound equal to `0` behaves exactly as if it were unset: filtering with
`yearFrom = 0` (resp. `yearTo = 0`) returns the same list as filtering with
that bound `null`, for every record list and every other filter setting. -/
theorem c10_zero_year_bound_is_unset (fil : FilterState) (records : List Record) :
    p3FilterStage { fil with yearFrom := some 0 } records
      = p3FilterStage { fil with yearFrom := none } records
    ∧ p3FilterStage { fil with yearTo := some 0 } records
      = p3FilterStage { fil with yearTo := none } records := by
  constructor
  · exact List.filter_congr
      (fun r _ => by simp [p3RecordPasses, jsTruthyInt])
  · exact List.filter_congr
      (fun r _ => by simp [p3RecordPasses, jsTruthyInt])

end Vinyl
